import Mathlib

/-!
Verification of the ABC-metrics core (`internal/metrics` package) and the
detail-listing loop of the CLI (`cmd/abc/commands/root.go`).

Modelling conventions:
* Go `int` fields are modelled as `ℤ`; for the in-domain properties the
  counts are node counts far below any machine bound, so they are used
  unbounded, while totality over the full `int` range is analysed against
  the wrapping 64-bit model `wrap64` / `scoreArg64`.
* Go `float64` results are modelled as real numbers; `math.Sqrt` is
  `Real.sqrt`.
* Go slices are Lean lists; the variadic `CombineMetrics(metrics ...)` takes
  a `List ABCMetrics`.
* Console output of the CLI loops is modelled as the list of printed lines.
-/

/-- `MetricDetail` from the metrics package: a single item that contributes
to a metric. -/
structure MetricDetail where
  Line : ℤ
  Col : ℤ
  Text : String
  Context : String
  deriving DecidableEq, Repr, Inhabited

/-- `ABCMetrics` from the metrics package: assignment, branch and condition
counts plus their evidence lists. -/
structure ABCMetrics where
  Assignments : ℤ
  Branches : ℤ
  Conditions : ℤ
  AssignmentList : List MetricDetail
  BranchList : List MetricDetail
  ConditionList : List MetricDetail
  deriving DecidableEq, Repr, Inhabited

/-- `ABCMetrics.Score`: `math.Sqrt(float64(A*A + B*B + C*C))`. -/
noncomputable def ABCMetrics.Score (m : ABCMetrics) : ℝ :=
  Real.sqrt ((m.Assignments * m.Assignments + m.Branches * m.Branches +
    m.Conditions * m.Conditions : ℤ) : ℝ)

/-- `SeverityLevel` from the metrics package: the `switch` over score
thresholds. -/
noncomputable def SeverityLevel (score : ℝ) : String :=
  if score < 10 then "Low"
  else if score < 20 then "Medium"
  else if score < 40 then "High"
  else "Very High"

/-- The zero value `ABCMetrics{}` that `CombineMetrics` starts from. -/
def ABCMetrics.empty : ABCMetrics :=
  ⟨0, 0, 0, [], [], []⟩

/-- One iteration of the `CombineMetrics` loop body: add the counts of `m`
into `combined` and append the detail lists. -/
def combineStep (combined m : ABCMetrics) : ABCMetrics :=
  { Assignments := combined.Assignments + m.Assignments
    Branches := combined.Branches + m.Branches
    Conditions := combined.Conditions + m.Conditions
    AssignmentList := combined.AssignmentList ++ m.AssignmentList
    BranchList := combined.BranchList ++ m.BranchList
    ConditionList := combined.ConditionList ++ m.ConditionList }

/-- `CombineMetrics(metrics ...ABCMetrics)`: fold the loop body over the
argument list, starting from the zero accumulator. -/
def CombineMetrics (metrics : List ABCMetrics) : ABCMetrics :=
  metrics.foldl combineStep ABCMetrics.empty

lemma combineStep_empty_left (m : ABCMetrics) : combineStep ABCMetrics.empty m = m := by
  cases m
  simp [combineStep, ABCMetrics.empty]

lemma combineStep_empty_right (m : ABCMetrics) : combineStep m ABCMetrics.empty = m := by
  cases m
  simp [combineStep, ABCMetrics.empty]

lemma combineStep_assoc (a b c : ABCMetrics) :
    combineStep (combineStep a b) c = combineStep a (combineStep b c) := by
  simp [combineStep, add_assoc, List.append_assoc]

lemma CombineMetrics_cons (m : ABCMetrics) (ms : List ABCMetrics) :
    CombineMetrics (m :: ms) = (ms.foldl combineStep m) := by
  simp [CombineMetrics, combineStep_empty_left]

lemma CombineMetrics_pair (a b : ABCMetrics) :
    CombineMetrics [a, b] = combineStep a b := by
  simp [CombineMetrics, combineStep_empty_left]

/-- C1: `Score` is `sqrt(A² + B² + C²)` computed from the three count fields
only; the evidence lists never influence the result. -/
theorem score_from_counts_only (A B C : ℤ)
    (l₁ l₂ l₃ l₁' l₂' l₃' : List MetricDetail) :
    ABCMetrics.Score ⟨A, B, C, l₁, l₂, l₃⟩ = Real.sqrt ((A * A + B * B + C * C : ℤ) : ℝ) ∧
    ABCMetrics.Score ⟨A, B, C, l₁, l₂, l₃⟩ = ABCMetrics.Score ⟨A, B, C, l₁', l₂', l₃'⟩ := by
  constructor <;> rfl

/-- Two's-complement wrap-around of Go `int` (64-bit) arithmetic: reduce an
integer into `[-2^63, 2^63)`. -/
def wrap64 (x : ℤ) : ℤ :=
  (x + 2 ^ 63) % 2 ^ 64 - 2 ^ 63

/-- The argument `Score` passes to `math.Sqrt`, with the source's `int`
multiplications and additions given their actual wrapping 64-bit semantics:
`m.Assignments*m.Assignments + m.Branches*m.Branches + m.Conditions*m.Conditions`. -/
def scoreArg64 (A B C : ℤ) : ℤ :=
  wrap64 (wrap64 (wrap64 (A * A) + wrap64 (B * B)) + wrap64 (C * C))

lemma wrap64_eq_self (x : ℤ) (h₁ : -(2 ^ 63) ≤ x) (h₂ : x < 2 ^ 63) :
    wrap64 x = x := by
  unfold wrap64
  omega

/-- C9 counterexample: under Go's wrapping 64-bit `int` arithmetic the claim
is false — at `Assignments = 3037000500` (branches and conditions zero) the
square overflows and the value passed to the square root is negative, so
`math.Sqrt` receives a negative `float64` and returns NaN. -/
theorem score_arg_overflow_counterexample :
    scoreArg64 3037000500 0 0 < 0 ∧
    scoreArg64 3037000500 0 0 = -9223372036709301616 := by
  decide

/-- C9 (amended): for every integer triple, negative values included, whose
true sum of squares `A² + B² + C²` is below `2^63` — in particular every
accumulator whose counts count AST nodes — the 64-bit computation does not
wrap: the argument passed to the square root equals `A² + B² + C²`, is
non-negative, and `Score` returns a well-defined non-negative number. -/
theorem score_total_nonneg_amended (A B C : ℤ) (l₁ l₂ l₃ : List MetricDetail)
    (h : A * A + B * B + C * C < 2 ^ 63) :
    scoreArg64 A B C = A * A + B * B + C * C ∧
    0 ≤ A * A + B * B + C * C ∧
    0 ≤ ABCMetrics.Score ⟨A, B, C, l₁, l₂, l₃⟩ := by
  have hA := mul_self_nonneg A
  have hB := mul_self_nonneg B
  have hC := mul_self_nonneg C
  have e1 : wrap64 (A * A) = A * A :=
    wrap64_eq_self _ (by linarith) (by linarith)
  have e2 : wrap64 (B * B) = B * B :=
    wrap64_eq_self _ (by linarith) (by linarith)
  have e3 : wrap64 (C * C) = C * C :=
    wrap64_eq_self _ (by linarith) (by linarith)
  have e4 : wrap64 (A * A + B * B) = A * A + B * B :=
    wrap64_eq_self _ (by linarith) (by linarith)
  have e5 : wrap64 (A * A + B * B + C * C) = A * A + B * B + C * C :=
    wrap64_eq_self _ (by linarith) (by linarith)
  refine ⟨?_, by linarith, Real.sqrt_nonneg _⟩
  unfold scoreArg64
  rw [e1, e2, e3, e4, e5]

/-- Witness for the amended C9 at counts (1, 2, 2). -/
theorem score_total_nonneg_amended_witness :
    (1 * 1 + 2 * 2 + 2 * 2 : ℤ) < 2 ^ 63 ∧
    (scoreArg64 1 2 2 = 1 * 1 + 2 * 2 + 2 * 2 ∧
      0 ≤ (1 * 1 + 2 * 2 + 2 * 2 : ℤ) ∧
      0 ≤ ABCMetrics.Score ⟨1, 2, 2, [], [], []⟩) :=
  ⟨by decide, score_total_nonneg_amended 1 2 2 [] [] [] (by decide)⟩

/-- The invariant that each evidence list's length equals its corresponding
count field. -/
def listsMatchCounts (m : ABCMetrics) : Prop :=
  (m.AssignmentList.length : ℤ) = m.Assignments ∧
  (m.BranchList.length : ℤ) = m.Branches ∧
  (m.ConditionList.length : ℤ) = m.Conditions

instance (m : ABCMetrics) : Decidable (listsMatchCounts m) := by
  unfold listsMatchCounts
  infer_instance

lemma combineStep_preserves (a b : ABCMetrics)
    (ha : listsMatchCounts a) (hb : listsMatchCounts b) :
    listsMatchCounts (combineStep a b) := by
  obtain ⟨ha1, ha2, ha3⟩ := ha
  obtain ⟨hb1, hb2, hb3⟩ := hb
  refine ⟨?_, ?_, ?_⟩ <;> simp [combineStep] <;> omega

lemma foldl_combineStep_preserves (ms : List ABCMetrics) :
    ∀ acc : ABCMetrics, listsMatchCounts acc →
      (∀ m ∈ ms, listsMatchCounts m) →
      listsMatchCounts (ms.foldl combineStep acc) := by
  induction ms with
  | nil => intro acc hacc _; simpa using hacc
  | cons m ms ih =>
      intro acc hacc hall
      simp only [List.foldl_cons]
      exact ih _ (combineStep_preserves _ _ hacc (hall m (by simp)))
        (fun x hx => hall x (by simp [hx]))

/-- C3: `CombineMetrics` is associative: combining `combine(a,b)` with `c`
equals combining `a` with `combine(b,c)`, and a pairwise combination sums
each count field and concatenates each evidence list in left-to-right
argument order. -/
theorem combineMetrics_assoc (a b c : ABCMetrics) :
    CombineMetrics [CombineMetrics [a, b], c] = CombineMetrics [a, CombineMetrics [b, c]] ∧
    (CombineMetrics [a, b]).Assignments = a.Assignments + b.Assignments ∧
    (CombineMetrics [a, b]).Branches = a.Branches + b.Branches ∧
    (CombineMetrics [a, b]).Conditions = a.Conditions + b.Conditions ∧
    (CombineMetrics [a, b]).AssignmentList = a.AssignmentList ++ b.AssignmentList ∧
    (CombineMetrics [a, b]).BranchList = a.BranchList ++ b.BranchList ∧
    (CombineMetrics [a, b]).ConditionList = a.ConditionList ++ b.ConditionList := by
  refine ⟨?_, ?_, ?_, ?_, ?_, ?_, ?_⟩ <;>
    simp [CombineMetrics_pair, combineStep_assoc, combineStep, add_assoc]

/-- C5: the all-zero, all-empty accumulator is a two-sided identity for
`CombineMetrics`. -/
theorem combineMetrics_identity (a : ABCMetrics) :
    CombineMetrics [a, ABCMetrics.empty] = a ∧ CombineMetrics [ABCMetrics.empty, a] = a := by
  constructor <;>
    simp [CombineMetrics_pair, combineStep_empty_left, combineStep_empty_right]

/-- C4: `CombineMetrics` preserves the invariant that every evidence list's
length equals its corresponding count. -/
theorem combineMetrics_preserves_invariant (ms : List ABCMetrics)
    (h : ∀ m ∈ ms, listsMatchCounts m) :
    listsMatchCounts (CombineMetrics ms) :=
  foldl_combineStep_preserves ms ABCMetrics.empty (by decide) h

/-- Witness for C4 at a concrete singleton list. -/
theorem combineMetrics_preserves_invariant_witness :
    (∀ m ∈ [(⟨1, 0, 2, [⟨3, 1, "x", "Assignment (1 variables)"⟩], [],
        [⟨4, 1, "if statement", "Condition"⟩, ⟨5, 2, "&&", "Logical operator"⟩]⟩ : ABCMetrics)],
      listsMatchCounts m) ∧
    listsMatchCounts (CombineMetrics
      [⟨1, 0, 2, [⟨3, 1, "x", "Assignment (1 variables)"⟩], [],
        [⟨4, 1, "if statement", "Condition"⟩, ⟨5, 2, "&&", "Logical operator"⟩]⟩]) :=
  ⟨by decide, combineMetrics_preserves_invariant _ (by decide)⟩

/-- C6: `Score` is monotonically non-decreasing in each count independently
(stated jointly: raising any subset of the non-negative counts never lowers
the score). -/
theorem score_monotone (A B C A' B' C' : ℤ) (l₁ l₂ l₃ l₁' l₂' l₃' : List MetricDetail)
    (hA : 0 ≤ A) (hB : 0 ≤ B) (hC : 0 ≤ C)
    (hA' : A ≤ A') (hB' : B ≤ B') (hC' : C ≤ C') :
    ABCMetrics.Score ⟨A, B, C, l₁, l₂, l₃⟩ ≤ ABCMetrics.Score ⟨A', B', C', l₁', l₂', l₃'⟩ := by
  apply Real.sqrt_le_sqrt
  have h1 : A * A ≤ A' * A' := mul_self_le_mul_self hA hA'
  have h2 : B * B ≤ B' * B' := mul_self_le_mul_self hB hB'
  have h3 : C * C ≤ C' * C' := mul_self_le_mul_self hC hC'
  exact_mod_cast add_le_add (add_le_add h1 h2) h3

/-- Witness for C6: raising the assignment count from 1 to 2 with branches 2
and conditions 3 fixed does not lower the score. -/
theorem score_monotone_witness :
    ((0 : ℤ) ≤ 1 ∧ (0 : ℤ) ≤ 2 ∧ (0 : ℤ) ≤ 3 ∧ (1 : ℤ) ≤ 2) ∧
    ABCMetrics.Score ⟨1, 2, 3, [], [], []⟩ ≤ ABCMetrics.Score ⟨2, 2, 3, [], [], []⟩ :=
  ⟨by decide, score_monotone 1 2 3 2 2 3 [] [] [] [] [] []
    (by decide) (by decide) (by decide) (by decide) (by decide) (by decide)⟩

/-- C2: `SeverityLevel` maps each score to exactly one of the four literal
labels with half-open-low boundaries, and the boundary scores 10, 20, 40 map
to "Medium", "High", "Very High" respectively. -/
theorem severityLevel_cases :
    (∀ s : ℝ, s < 10 → SeverityLevel s = "Low") ∧
    (∀ s : ℝ, 10 ≤ s → s < 20 → SeverityLevel s = "Medium") ∧
    (∀ s : ℝ, 20 ≤ s → s < 40 → SeverityLevel s = "High") ∧
    (∀ s : ℝ, 40 ≤ s → SeverityLevel s = "Very High") ∧
    SeverityLevel 10 = "Medium" ∧ SeverityLevel 20 = "High" ∧
    SeverityLevel 40 = "Very High" := by
  refine ⟨fun s h => ?_, fun s h1 h2 => ?_, fun s h1 h2 => ?_, fun s h => ?_, ?_, ?_, ?_⟩
  · rw [SeverityLevel, if_pos h]
  · rw [SeverityLevel, if_neg (not_lt.mpr h1), if_pos h2]
  · rw [SeverityLevel, if_neg (not_lt.mpr (by linarith)), if_neg (not_lt.mpr h1), if_pos h2]
  · rw [SeverityLevel, if_neg (not_lt.mpr (by linarith)),
      if_neg (not_lt.mpr (by linarith)), if_neg (not_lt.mpr h)]
  · norm_num [SeverityLevel]
  · norm_num [SeverityLevel]
  · norm_num [SeverityLevel]

/-- Witness for C2 at one concrete score per bucket. -/
theorem severityLevel_cases_witness :
    SeverityLevel 5 = "Low" ∧ SeverityLevel 15 = "Medium" ∧
    SeverityLevel 25 = "High" ∧ SeverityLevel 45 = "Very High" :=
  ⟨severityLevel_cases.1 5 (by norm_num),
   severityLevel_cases.2.1 15 (by norm_num) (by norm_num),
   severityLevel_cases.2.2.1 25 (by norm_num) (by norm_num),
   severityLevel_cases.2.2.2.1 45 (by norm_num)⟩

/-- C10: every negative score is mapped to "Low" by `SeverityLevel`. -/
theorem severityLevel_negative (s : ℝ) (h : s < 0) : SeverityLevel s = "Low" := by
  rw [SeverityLevel, if_pos (by linarith)]

/-- Witness for C10 at score -1. -/
theorem severityLevel_negative_witness :
    (-1 : ℝ) < 0 ∧ SeverityLevel (-1) = "Low" :=
  ⟨by norm_num, severityLevel_negative (-1) (by norm_num)⟩

/-- Pad a value `0 ≤ r < 100` of hundredths to two digits. -/
def twoDigits (r : ℕ) : String :=
  if r < 10 then "0" ++ toString r else toString r

/-- Print `q` hundredths as a fixed two-decimal numeral, the way `%.2f`
prints the rounded value (sign handling is only exercised here for the
non-negative scores this program produces). -/
def fmtHundredths (q : ℤ) : String :=
  if q < 0 then
    "-" ++ toString ((-q).toNat / 100) ++ "." ++ twoDigits ((-q).toNat % 100)
  else
    toString (q.toNat / 100) ++ "." ++ twoDigits (q.toNat % 100)

/-- The `%.2f` verb of `fmt.Sprintf`: round to the nearest hundredth and
print exactly two decimals. -/
noncomputable def fmtFloat2 (x : ℝ) : String :=
  fmtHundredths (round (100 * x))

/-- `ABCMetrics.String` (the `fmt.Sprintf("ABC: %.2f (A=%d, B=%d, C=%d)", ...)`
summary); named `render` here, as the spec calls it, since `String` is the
Lean string type. -/
noncomputable def ABCMetrics.render (m : ABCMetrics) : String :=
  "ABC: " ++ fmtFloat2 m.Score ++ " (A=" ++ toString m.Assignments ++
    ", B=" ++ toString m.Branches ++ ", C=" ++ toString m.Conditions ++ ")"

/-- C7: the rendered summary is exactly
`"ABC: {score:.2f} (A={assignments}, B={branches}, C={conditions})"` — the
two-decimal rounded score and the three raw counts — checked in general
shape and end-to-end on a concrete accumulator with score `sqrt(9) = 3`. -/
theorem render_format (m : ABCMetrics) :
    m.render = "ABC: " ++ fmtFloat2 m.Score ++ " (A=" ++ toString m.Assignments ++
      ", B=" ++ toString m.Branches ++ ", C=" ++ toString m.Conditions ++ ")" ∧
    ABCMetrics.render ⟨1, 2, 2, [], [], []⟩ = "ABC: 3.00 (A=1, B=2, C=2)" := by
  refine ⟨rfl, ?_⟩
  have hscore : ABCMetrics.Score ⟨1, 2, 2, [], [], []⟩ = 3 := by
    show Real.sqrt ((1 * 1 + 2 * 2 + 2 * 2 : ℤ) : ℝ) = 3
    rw [show ((1 * 1 + 2 * 2 + 2 * 2 : ℤ) : ℝ) = (3 : ℝ) ^ 2 by norm_num]
    exact Real.sqrt_sq (by norm_num)
  rw [ABCMetrics.render, hscore, fmtFloat2,
    show (100 : ℝ) * 3 = ((300 : ℤ) : ℝ) by norm_num, round_intCast]
  rfl

/-- One line of the CLI detail listing:
`fmt.Printf("  %d. Line %d: %s (%s)\n", i+1, d.Line, d.Text, d.Context)`. -/
def detailLine (idx : ℕ) (d : MetricDetail) : String :=
  "  " ++ toString idx ++ ". Line " ++ toString d.Line ++ ": " ++ d.Text ++
    " (" ++ d.Context ++ ")"

/-- The `for i, x := range list` printing loop of `analyzeCmd`, entered with
loop index `n`. -/
def printLoop : ℕ → List MetricDetail → List String
  | _, [] => []
  | n, d :: ds => detailLine (n + 1) d :: printLoop (n + 1) ds

/-- The lines printed by `analyzeCmd` when `--show` is set: each category
header (preceded by a blank line, from `fmt.Println("\nAssignments:")` etc.)
followed by that category's loop, in source order. -/
def detailOutput (m : ABCMetrics) : List String :=
  ["\nAssignments:"] ++ printLoop 0 m.AssignmentList ++
  ["\nBranches:"] ++ printLoop 0 m.BranchList ++
  ["\nConditions:"] ++ printLoop 0 m.ConditionList

/-- Modelled from the spec's reporting contract: each list rendered as
`"  {index}. Line {line}: {text} ({context})"` with a 1-based index, records
in insertion order. -/
def specListing (l : List MetricDetail) : List String :=
  l.enum.map fun p =>
    "  " ++ toString (p.1 + 1) ++ ". Line " ++ toString p.2.Line ++ ": " ++
      p.2.Text ++ " (" ++ p.2.Context ++ ")"

lemma printLoop_eq_enumFrom (l : List MetricDetail) :
    ∀ n : ℕ, printLoop n l = (l.enumFrom n).map fun p => detailLine (p.1 + 1) p.2 := by
  induction l with
  | nil => intro n; rfl
  | cons d ds ih => intro n; simp [printLoop, List.enumFrom, ih]

/-- C8: the detail listing enumerates every evidence record as a line of the
exact spec form with a 1-based index, each list in insertion order, and the
categories in the fixed order Assignments, Branches, Conditions. -/
theorem detail_listing_spec (m : ABCMetrics) :
    detailOutput m =
      ["\nAssignments:"] ++ specListing m.AssignmentList ++
      ["\nBranches:"] ++ specListing m.BranchList ++
      ["\nConditions:"] ++ specListing m.ConditionList := by
  simp [detailOutput, specListing, List.enum, printLoop_eq_enumFrom, detailLine]
